import Mathlib

/-!
Shallow embedding of the Minesweeper solving agent (`minesweeper.py`):
the `Sentence` constraint type and the `MinesweeperAI` knowledge agent,
here called `AIState`.  Board cells are pairs of natural numbers
(row, column); counts are integers, as in the source, so that the
unguarded decrement in `Sentence.mark_mine` is represented faithfully.
Python sets become `Finset`, the ordered knowledge list becomes
`List Sentence`, and each method becomes a pure function on the state.
-/

abbrev Cell := ℕ × ℕ

/-- A logical statement about the game: a set of board cells and a count of
how many of those cells are mines.  Equality in the source compares the cell
set and the count by value, which is structural equality here. -/
structure Sentence where
  cells : Finset Cell
  count : Int
deriving DecidableEq

/-- `Sentence.known_mines`: the cell set when every cell must be a mine
(`len(self.cells) == self.count`), else the empty set. -/
def Sentence.known_mines (s : Sentence) : Finset Cell :=
  if (s.cells.card : Int) = s.count then s.cells else ∅

/-- `Sentence.known_safes`: the cell set when no cell can be a mine
(`self.count == 0`), else the empty set. -/
def Sentence.known_safes (s : Sentence) : Finset Cell :=
  if s.count = 0 then s.cells else ∅

/-- `Sentence.mark_mine`: if the cell is present, remove it and decrement the
count by one; the source performs no lower-bound check on the count. -/
def Sentence.mark_mine (s : Sentence) (cell : Cell) : Sentence :=
  if cell ∈ s.cells then ⟨s.cells.erase cell, s.count - 1⟩ else s

/-- `Sentence.mark_safe`: if the cell is present, remove it; the count is
unchanged. -/
def Sentence.mark_safe (s : Sentence) (cell : Cell) : Sentence :=
  if cell ∈ s.cells then ⟨s.cells.erase cell, s.count⟩ else s

/-- The trivial sentence `set() = 0`, the `useless_sentence` that
`add_knowledge` tries to prune from the knowledge base. -/
def trivialSentence : Sentence := ⟨∅, 0⟩

/-- State of the `MinesweeperAI` agent. -/
structure AIState where
  height : ℕ
  width : ℕ
  moves_made : Finset Cell
  mines : Finset Cell
  safes : Finset Cell
  knowledge : List Sentence
deriving DecidableEq

/-- `MinesweeperAI.__init__`: all sets empty, no knowledge. -/
def AIState.init (height width : ℕ) : AIState :=
  ⟨height, width, ∅, ∅, ∅, []⟩

/-- `MinesweeperAI.mark_mine`: add the cell to `mines` and resolve it as a
mine in every sentence of the knowledge base. -/
def AIState.mark_mine (st : AIState) (cell : Cell) : AIState :=
  { st with mines := insert cell st.mines,
            knowledge := st.knowledge.map fun s => s.mark_mine cell }

/-- `MinesweeperAI.mark_safe`: add the cell to `safes` and resolve it as safe
in every sentence of the knowledge base. -/
def AIState.mark_safe (st : AIState) (cell : Cell) : AIState :=
  { st with safes := insert cell st.safes,
            knowledge := st.knowledge.map fun s => s.mark_safe cell }

/-- `MinesweeperAI.get_neighbours`: the neighbouring rows are the cell's row
together with row − 1 when the row is positive and row + 1 when it is below
`height − 1`; likewise for columns; the neighbours are the product of the two
sets minus the cell itself.  Python's `height - 1` on `height = 0` is `-1`
and no row satisfies `row < -1`, which truncated subtraction also gives. -/
def AIState.get_neighbours (st : AIState) (cell : Cell) : Finset Cell :=
  let rows : Finset ℕ :=
    {cell.1} ∪ (if 0 < cell.1 then {cell.1 - 1} else ∅) ∪
      (if cell.1 < st.height - 1 then {cell.1 + 1} else ∅)
  let cols : Finset ℕ :=
    {cell.2} ∪ (if 0 < cell.2 then {cell.2 - 1} else ∅) ∪
      (if cell.2 < st.width - 1 then {cell.2 + 1} else ∅)
  (rows ×ˢ cols).erase cell

/-- The pairs produced by `itertools.combinations(knowledge, 2)`: every
`(knowledge[i], knowledge[j])` with `i < j`, in lexicographic index order.
`combinations` materialises the list when the loop starts, so sentences
appended during `make_inferences` generate no further pairs. -/
def inferencePairs : List Sentence → List (Sentence × Sentence)
  | [] => []
  | x :: xs => (xs.map fun y => (x, y)) ++ inferencePairs xs

/-- The body of the loop in `MinesweeperAI.make_inferences` for one pair:
skip when the sentences are equal by value or the first count is smaller;
otherwise, when the intersection of the cell sets is non-empty and the
candidate sentence (intersection, difference of counts) is not already in the
knowledge base by value, append it and add its `known_safes` cells to `safes`
and its `known_mines` cells to `mines` (plain set insertions, without
resolving those cells out of other sentences). -/
def inferStep (st : AIState) (p : Sentence × Sentence) : AIState :=
  if p.1 = p.2 ∨ p.1.count < p.2.count then st
  else if p.1.cells ∩ p.2.cells = ∅ then st
  else if (⟨p.1.cells ∩ p.2.cells, p.1.count - p.2.count⟩ : Sentence) ∈ st.knowledge then st
  else
    { st with
      knowledge := st.knowledge ++ [⟨p.1.cells ∩ p.2.cells, p.1.count - p.2.count⟩],
      safes := st.safes ∪ Sentence.known_safes ⟨p.1.cells ∩ p.2.cells, p.1.count - p.2.count⟩,
      mines := st.mines ∪ Sentence.known_mines ⟨p.1.cells ∩ p.2.cells, p.1.count - p.2.count⟩ }

/-- `MinesweeperAI.make_inferences`: run `inferStep` over the combination
pairs of the knowledge base as it stands on entry. -/
def AIState.make_inferences (st : AIState) : AIState :=
  (inferencePairs st.knowledge).foldl inferStep st

/-- The `for sentence in self.knowledge: if sentence == useless_sentence:
self.knowledge.remove(sentence)` loop of `add_knowledge`, with Python's
index-based iteration over the live list made explicit: fetch position `k`,
on a match remove the first occurrence of the trivial sentence, and continue
from position `k + 1` of the (possibly shifted) list.  The fuel starts at the
initial length; the index grows by one per step and the list never grows, so
the fuel runs out only when `k` is already past the end. -/
def pruneGo : ℕ → List Sentence → ℕ → List Sentence
  | 0, l, _ => l
  | fuel + 1, l, k =>
    if h : k < l.length then
      if l.get ⟨k, h⟩ = trivialSentence then
        pruneGo fuel (l.erase trivialSentence) (k + 1)
      else
        pruneGo fuel l (k + 1)
    else l

/-- The cleanup pass of `add_knowledge` over the whole knowledge list. -/
def pruneTrivial (l : List Sentence) : List Sentence :=
  pruneGo l.length l 0

/-- One sentence under the final loop of `add_knowledge`: for each cell of a
copy of the sentence's cell set, `mark_safe` it when it is in `safes` and
then `mark_mine` it when it is in `mines`.  Distinct cells are removed
independently, so the result does not depend on the set iteration order: a
cell in `safes` is removed without touching the count (and the later
`mark_mine` on it no longer fires), a cell in `mines` but not `safes` is
removed with the count decremented, and other cells stay. -/
def sweepSentence (safes mines : Finset Cell) (s : Sentence) : Sentence :=
  ⟨s.cells \ (safes ∪ mines), s.count - ((s.cells ∩ (mines \ safes)).card : Int)⟩

/-- The final loop of `add_knowledge`: sweep every sentence with the current
`safes` and `mines`. -/
def AIState.sweep_knowledge (st : AIState) : AIState :=
  { st with knowledge := st.knowledge.map (sweepSentence st.safes st.mines) }

/-- The `if count == 0` branch of `add_knowledge`: agent-level `mark_safe` of
every neighbour.  Insertions into `safes` and removals of distinct cells from
sentences commute, giving this order-independent form. -/
def AIState.mark_all_safe (st : AIState) (cs : Finset Cell) : AIState :=
  { st with safes := st.safes ∪ cs,
            knowledge := st.knowledge.map fun s => ⟨s.cells \ cs, s.count⟩ }

/-- The `if len(neighbouring_cells) == count` branch of `add_knowledge`:
agent-level `mark_mine` of every neighbour.  Each cell of `cs` present in a
sentence is removed with one decrement of the count, so the count drops by
the size of the overlap. -/
def AIState.mark_all_mine (st : AIState) (cs : Finset Cell) : AIState :=
  { st with mines := st.mines ∪ cs,
            knowledge := st.knowledge.map fun s =>
              ⟨s.cells \ cs, s.count - ((s.cells ∩ cs).card : Int)⟩ }

/-- Steps 1–6 of `MinesweeperAI.add_knowledge`: record the move, mark the
revealed cell safe, append the observation sentence over the neighbours,
apply the two degenerate-case branches, run inference, and prune trivial
sentences. -/
def AIState.add_knowledge_core (st : AIState) (cell : Cell) (count : Int) : AIState :=
  let st1 := { st with moves_made := insert cell st.moves_made }
  let st2 := st1.mark_safe cell
  let neighbours := st2.get_neighbours cell
  let st3 := { st2 with knowledge := st2.knowledge ++ [(⟨neighbours, count⟩ : Sentence)] }
  let st4 := if count = 0 then st3.mark_all_safe neighbours else st3
  let st5 := if (neighbours.card : Int) = count then st4.mark_all_mine neighbours else st4
  let st6 := st5.make_inferences
  { st6 with knowledge := pruneTrivial st6.knowledge }

/-- `MinesweeperAI.add_knowledge`: the core update followed by the final
sweep of every sentence against the current `safes` and `mines`. -/
def AIState.add_knowledge (st : AIState) (cell : Cell) (count : Int) : AIState :=
  (st.add_knowledge_core cell count).sweep_knowledge

/-- An element of a finite set of cells, standing for Python's `set.pop()`
on the freshly built difference set in `make_safe_move` (which element `pop`
returns is unspecified; this picks the one whose pairing-function code is
least). -/
def pickCell (s : Finset Cell) : Option Cell :=
  if h : (s.image fun c => Nat.pair c.1 c.2).Nonempty then
    some (Nat.unpair ((s.image fun c => Nat.pair c.1 c.2).min' h))
  else none

/-- `MinesweeperAI.make_safe_move`: build `safes - moves_made - mines` and
return an element of it, or `none` when it is empty.  Only the temporary set
is popped, so the agent state is returned unchanged. -/
def AIState.make_safe_move (st : AIState) : Option Cell × AIState :=
  (pickCell ((st.safes \ st.moves_made) \ st.mines), st)

/-- `MinesweeperAI.make_random_move`: scan rows `0 .. height - 2` and inside
each row columns `0 .. width - 2` (the source iterates
`range(0, self.height - 1)` and `range(0, self.width - 1)`), returning the
first cell in neither `moves_made` nor `mines`, else `none`. -/
def AIState.make_random_move (st : AIState) : Option Cell :=
  (List.range (st.height - 1)).findSome? fun row =>
    (List.range (st.width - 1)).findSome? fun col =>
      if (row, col) ∉ st.moves_made ∧ (row, col) ∉ st.mines then some (row, col)
      else none

/-- Modelled from the claim's words (claim C10): the first cell in row-major
order over rows `0 .. height - 2` and columns `0 .. width - 2` that is in
neither `moves_made` nor `mines`, or `none` when no such cell exists in that
range. -/
def fallbackSpec (height width : ℕ) (moves mines : Finset Cell) : Option Cell :=
  ((List.range (height - 1)).flatMap fun row =>
      (List.range (width - 1)).map fun col => (row, col)).find?
    fun p => decide (p ∉ moves ∧ p ∉ mines)

/-! ## Sentence-level lemmas -/

theorem mark_safe_not_mem (s : Sentence) (c : Cell) : c ∉ (s.mark_safe c).cells := by
  unfold Sentence.mark_safe
  split
  · exact Finset.not_mem_erase c s.cells
  · next h => exact h

theorem mark_mine_not_mem (s : Sentence) (c : Cell) : c ∉ (s.mark_mine c).cells := by
  unfold Sentence.mark_mine
  split
  · exact Finset.not_mem_erase c s.cells
  · next h => exact h

theorem mark_safe_idem (s : Sentence) (c : Cell) :
    (s.mark_safe c).mark_safe c = s.mark_safe c := by
  have h := mark_safe_not_mem s c
  unfold Sentence.mark_safe
  unfold Sentence.mark_safe at h
  split at h
  · simp_all
  · simp_all

theorem mark_mine_idem (s : Sentence) (c : Cell) :
    (s.mark_mine c).mark_mine c = s.mark_mine c := by
  have h := mark_mine_not_mem s c
  unfold Sentence.mark_mine
  unfold Sentence.mark_mine at h
  split at h
  · simp_all
  · simp_all

/-- Claim C9: marking a cell safe twice in a row on the agent yields a state
identical to marking it once, and likewise for marking a cell as a mine,
including every sentence's cell set and count. -/
theorem C9_idempotent (st : AIState) (c : Cell) :
    (st.mark_safe c).mark_safe c = st.mark_safe c ∧
    (st.mark_mine c).mark_mine c = st.mark_mine c := by
  constructor
  · simp only [AIState.mark_safe, List.map_map, Finset.insert_idem]
    rw [show ((fun s => Sentence.mark_safe s c) ∘ fun s => Sentence.mark_safe s c) =
        fun s => Sentence.mark_safe s c from funext fun s => mark_safe_idem s c]
  · simp only [AIState.mark_mine, List.map_map, Finset.insert_idem]
    rw [show ((fun s => Sentence.mark_mine s c) ∘ fun s => Sentence.mark_mine s c) =
        fun s => Sentence.mark_mine s c from funext fun s => mark_mine_idem s c]

/-! ## Claims C6 and C8: missing consistency guards -/

/-- Claim C6 counterexample: from the initial agent state, the call sequence
mark_safe (0,0) then mark_mine (0,0) reaches a state whose safe set and mine
set both contain (0,0), so the disjointness invariant fails for reachable
states. -/
theorem C6_counterexample :
    (0,0) ∈ (((AIState.init 1 1).mark_safe (0,0)).mark_mine (0,0)).safes ∧
    (0,0) ∈ (((AIState.init 1 1).mark_safe (0,0)).mark_mine (0,0)).mines ∧
    (((AIState.init 1 1).mark_safe (0,0)).mark_mine (0,0)).safes ∩
      (((AIState.init 1 1).mark_safe (0,0)).mark_mine (0,0)).mines ≠ ∅ := by
  decide

/-- Claim C6 as amended: a single mark_safe call preserves disjointness of
the safe and mine sets when the marked cell is not already a known mine, and
a single mark_mine call preserves it when the cell is not already known safe;
nothing in the code prevents the complementary calls, so disjointness holds
only along call sequences that never mark a cell both ways. -/
theorem C6_amended (st : AIState) (c : Cell) (hdisj : st.safes ∩ st.mines = ∅) :
    (c ∉ st.mines → (st.mark_safe c).safes ∩ (st.mark_safe c).mines = ∅) ∧
    (c ∉ st.safes → (st.mark_mine c).safes ∩ (st.mark_mine c).mines = ∅) := by
  constructor
  · intro hc
    simp only [AIState.mark_safe]
    rw [Finset.insert_inter_of_not_mem hc, hdisj]
  · intro hc
    simp only [AIState.mark_mine]
    rw [Finset.inter_insert_of_not_mem hc, hdisj]

/-- Witness for C6_amended at a concrete state. -/
theorem C6_amended_witness :
    ((AIState.init 2 2).safes ∩ (AIState.init 2 2).mines = ∅) ∧
    ((0,0) ∉ (AIState.init 2 2).mines) ∧
    (((AIState.init 2 2).mark_safe (0,0)).safes ∩
      ((AIState.init 2 2).mark_safe (0,0)).mines = ∅) :=
  ⟨by decide, by decide, (C6_amended (AIState.init 2 2) (0,0) (by decide)).1 (by decide)⟩

/-- Claim C8 counterexample: resolving a cell as a mine out of a sentence
whose count is 0 returns normally with the count driven to −1; no error is
signalled anywhere in the code. -/
theorem C8_counterexample :
    Sentence.mark_mine ⟨{(0,0)}, 0⟩ (0,0) = ⟨∅, -1⟩ ∧
    (Sentence.mark_mine ⟨{(0,0)}, 0⟩ (0,0)).count < 0 := by
  decide

/-- Claim C8 as amended: the code validates nothing and signals no error:
mark_mine on a sentence containing the cell always decrements the count, even
below zero; the agent's mark_mine and mark_safe insert the cell regardless of
the opposite set; and add_knowledge accepts a count far outside
[0, number of neighbours], storing the impossible sentence unchanged. -/
theorem C8_amended (s : Sentence) (c : Cell) (st : AIState) (h : c ∈ s.cells) :
    (s.mark_mine c).count = s.count - 1 ∧
    (st.mark_mine c).mines = insert c st.mines ∧
    (st.mark_safe c).safes = insert c st.safes ∧
    (⟨{(0,1),(1,0),(1,1)}, 99⟩ : Sentence) ∈
      ((AIState.init 2 2).add_knowledge (0,0) 99).knowledge := by
  refine ⟨?_, rfl, rfl, by decide⟩
  unfold Sentence.mark_mine
  rw [if_pos h]

/-- Witness for C8_amended at a concrete sentence and state. -/
theorem C8_amended_witness :
    ((0,0) ∈ (⟨{(0,0)}, 0⟩ : Sentence).cells) ∧
    ((Sentence.mark_mine ⟨{(0,0)}, 0⟩ (0,0)).count = 0 - 1 ∧
     ((AIState.init 1 1).mark_mine (0,0)).mines = insert (0,0) (AIState.init 1 1).mines ∧
     ((AIState.init 1 1).mark_safe (0,0)).safes = insert (0,0) (AIState.init 1 1).safes ∧
     (⟨{(0,1),(1,0),(1,1)}, 99⟩ : Sentence) ∈
       ((AIState.init 2 2).add_knowledge (0,0) 99).knowledge) :=
  ⟨by decide, C8_amended ⟨{(0,0)}, 0⟩ (0,0) (AIState.init 1 1) (by decide)⟩

/-! ## Claims C1, C3, C4: evaluations of the code at the failing inputs -/

/-- Claim C1 (code bug): with knowledge base containing {a,b,c,d} = 3 and
{a,b} = 1 (cells a = (0,0), b = (0,1), c = (0,2), d = (0,3)), the inference
step never adds the subset-elimination sentence {c,d} = 2; it appends the
intersection sentence {a,b} = 2 instead, which even contradicts the premise
{a,b} = 1. -/
theorem C1_code_eval :
    (⟨{(0,2),(0,3)}, 2⟩ : Sentence) ∉
      (AIState.mk 1 4 ∅ ∅ ∅
        [⟨{(0,0),(0,1),(0,2),(0,3)}, 3⟩, ⟨{(0,0),(0,1)}, 1⟩]).make_inferences.knowledge ∧
    (⟨{(0,0),(0,1)}, 2⟩ : Sentence) ∈
      (AIState.mk 1 4 ∅ ∅ ∅
        [⟨{(0,0),(0,1),(0,2),(0,3)}, 3⟩, ⟨{(0,0),(0,1)}, 1⟩]).make_inferences.knowledge := by
  decide

/-- Claim C3 (code bug): on a fresh 1 × 1 agent the cell (0,0) lies on the
board and is in neither moves_made nor mines, yet make_random_move returns
none, because the loops stop one row and one column short of the board
edge. -/
theorem C3_code_eval :
    (AIState.init 1 1).make_random_move = none ∧
    (0,0).1 < (AIState.init 1 1).height ∧
    (0,0).2 < (AIState.init 1 1).width ∧
    (0,0) ∉ (AIState.init 1 1).moves_made ∧
    (0,0) ∉ (AIState.init 1 1).mines := by
  decide

/-- Claim C4 (code bug): after the reachable call sequence
add_knowledge (0,0) 1 then add_knowledge (0,2) 1 on a fresh 4 × 4 agent, the
knowledge base still contains the trivial sentence ∅ = 0: the inference step
derives {(0,1),(1,1)} = 0 and records its cells as safe, pruning runs before
the final sweep, and the sweep then empties that sentence into ∅ = 0, which
survives to the end of the call. -/
theorem C4_code_eval :
    trivialSentence ∈
      (((AIState.init 4 4).add_knowledge (0,0) 1).add_knowledge (0,2) 1).knowledge := by
  decide

/-! ## Claim C5: normalization after add_knowledge -/

theorem sweep_knowledge_normalized (st : AIState) :
    ∀ s ∈ st.sweep_knowledge.knowledge, ∀ c ∈ s.cells,
      c ∉ st.sweep_knowledge.safes ∧ c ∉ st.sweep_knowledge.mines := by
  intro s hs c hc
  simp only [AIState.sweep_knowledge, List.mem_map] at hs
  rcases hs with ⟨t, _, rfl⟩
  simp only [sweepSentence, Finset.mem_sdiff, Finset.mem_union] at hc
  simp only [AIState.sweep_knowledge]
  exact ⟨fun h => hc.2 (Or.inl h), fun h => hc.2 (Or.inr h)⟩

/-- Claim C5: after any call to add_knowledge, no sentence of the knowledge
base contains a cell that is in the safe set or in the mine set: the final
sweep removes every such cell from every sentence, and it runs against the
safe and mine sets as they stand at the end of the call. -/
theorem C5_normalized (st : AIState) (cell : Cell) (count : Int) :
    ∀ s ∈ (st.add_knowledge cell count).knowledge, ∀ c ∈ s.cells,
      c ∉ (st.add_knowledge cell count).safes ∧ c ∉ (st.add_knowledge cell count).mines := by
  simp only [AIState.add_knowledge]
  exact sweep_knowledge_normalized (st.add_knowledge_core cell count)

/-- Witness for C5_normalized: a fresh 3 × 3 agent observing (0,0) with
count 1 keeps the sentence over the three neighbours, whose cell (0,1) is in
neither the safe set nor the mine set afterwards. -/
theorem C5_normalized_witness :
    ((⟨{(0,1),(1,0),(1,1)}, 1⟩ : Sentence) ∈
      ((AIState.init 3 3).add_knowledge (0,0) 1).knowledge) ∧
    ((0,1) ∈ (⟨{(0,1),(1,0),(1,1)}, 1⟩ : Sentence).cells) ∧
    ((0,1) ∉ ((AIState.init 3 3).add_knowledge (0,0) 1).safes ∧
      (0,1) ∉ ((AIState.init 3 3).add_knowledge (0,0) 1).mines) :=
  ⟨by decide, by decide,
    C5_normalized (AIState.init 3 3) (0,0) 1 ⟨{(0,1),(1,0),(1,1)}, 1⟩ (by decide) (0,1)
      (by decide)⟩

/-! ## Claim C2: which pairs the inference step processes -/

theorem inferStep_knowledge_mono (st : AIState) (p : Sentence × Sentence) (s : Sentence)
    (h : s ∈ st.knowledge) : s ∈ (inferStep st p).knowledge := by
  unfold inferStep
  split
  · exact h
  split
  · exact h
  split
  · exact h
  · exact List.mem_append_left _ h

theorem inferStep_adds (st : AIState) (p : Sentence × Sentence)
    (h1 : p.1 ≠ p.2) (h2 : p.2.count ≤ p.1.count)
    (h3 : (p.1.cells ∩ p.2.cells).Nonempty) :
    (⟨p.1.cells ∩ p.2.cells, p.1.count - p.2.count⟩ : Sentence) ∈ (inferStep st p).knowledge := by
  unfold inferStep
  rw [if_neg (by push_neg; exact ⟨h1, h2⟩), if_neg h3.ne_empty]
  split
  · next h => exact h
  · exact List.mem_append_right _ (List.mem_singleton.mpr rfl)

theorem foldl_inferStep_mono (ps : List (Sentence × Sentence)) (st : AIState) (s : Sentence)
    (h : s ∈ st.knowledge) : s ∈ (ps.foldl inferStep st).knowledge := by
  induction ps generalizing st with
  | nil => exact h
  | cons q qs ih => exact ih (inferStep st q) (inferStep_knowledge_mono st q s h)

theorem foldl_inferStep_adds (ps : List (Sentence × Sentence)) (st : AIState)
    (p : Sentence × Sentence) (hp : p ∈ ps)
    (h1 : p.1 ≠ p.2) (h2 : p.2.count ≤ p.1.count)
    (h3 : (p.1.cells ∩ p.2.cells).Nonempty) :
    (⟨p.1.cells ∩ p.2.cells, p.1.count - p.2.count⟩ : Sentence) ∈
      (ps.foldl inferStep st).knowledge := by
  induction ps generalizing st with
  | nil => cases hp
  | cons q qs ih =>
    rcases List.mem_cons.mp hp with rfl | hmem
    · exact foldl_inferStep_mono qs (inferStep st p) _ (inferStep_adds st p h1 h2 h3)
    · exact ih (inferStep st q) hmem

theorem pair_mem_inferencePairs (A B : Sentence) (l : List Sentence)
    (h : List.Sublist [A, B] l) : (A, B) ∈ inferencePairs l := by
  induction l with
  | nil => simp at h
  | cons x xs ih =>
    cases h with
    | cons _ h2 =>
      exact List.mem_append_right _ (ih h2)
    | cons₂ _ h2 =>
      refine List.mem_append_left _ (List.mem_map.mpr ⟨B, ?_, rfl⟩)
      exact List.singleton_sublist.mp h2

/-- Claim C2 counterexample: in a state whose knowledge list holds
{(0,0)} = 0 followed by {(0,0),(0,1)} = 1, the unordered pair qualifies with
A = {(0,0),(0,1)} = 1 and B = {(0,0)} = 0 (A.count ≥ B.count, intersection
{(0,0)} non-empty, candidate {(0,0)} = 1 absent), yet the inference step adds
nothing: itertools.combinations presents the pair in list order only, and
there the first sentence's count is smaller, so the pair is skipped. -/
theorem C2_counterexample :
    ((⟨{(0,0),(0,1)}, 1⟩ : Sentence) ∈
      (AIState.mk 2 2 ∅ ∅ ∅ [⟨{(0,0)}, 0⟩, ⟨{(0,0),(0,1)}, 1⟩]).knowledge) ∧
    ((⟨{(0,0)}, 0⟩ : Sentence) ∈
      (AIState.mk 2 2 ∅ ∅ ∅ [⟨{(0,0)}, 0⟩, ⟨{(0,0),(0,1)}, 1⟩]).knowledge) ∧
    (⟨{(0,0),(0,1)}, 1⟩ : Sentence) ≠ ⟨{(0,0)}, 0⟩ ∧
    (⟨{(0,0)}, 0⟩ : Sentence).count ≤ (⟨{(0,0),(0,1)}, 1⟩ : Sentence).count ∧
    (((⟨{(0,0),(0,1)}, 1⟩ : Sentence).cells ∩ (⟨{(0,0)}, 0⟩ : Sentence).cells).Nonempty) ∧
    ((⟨{(0,0)}, 1⟩ : Sentence) ∉
      (AIState.mk 2 2 ∅ ∅ ∅ [⟨{(0,0)}, 0⟩, ⟨{(0,0),(0,1)}, 1⟩]).knowledge) ∧
    ((⟨{(0,0)}, 1⟩ : Sentence) ∉
      (AIState.mk 2 2 ∅ ∅ ∅
        [⟨{(0,0)}, 0⟩, ⟨{(0,0),(0,1)}, 1⟩]).make_inferences.knowledge) := by
  decide

/-- Claim C2 as amended: the guarantee holds for ordered pairs only.  For
every pair of sentences A before B in the knowledge list with A ≠ B,
A.count ≥ B.count and a non-empty cell intersection, the knowledge base after
the inference step contains (by value) the sentence
(A.cells ∩ B.cells, A.count − B.count) — it is appended when absent and was
already present otherwise; a qualifying unordered pair whose higher-count
sentence appears later in the list is skipped. -/
theorem C2_amended (st : AIState) (A B : Sentence)
    (hsub : List.Sublist [A, B] st.knowledge)
    (hne : A ≠ B) (hcount : B.count ≤ A.count)
    (hinter : (A.cells ∩ B.cells).Nonempty) :
    (⟨A.cells ∩ B.cells, A.count - B.count⟩ : Sentence) ∈ st.make_inferences.knowledge :=
  foldl_inferStep_adds (inferencePairs st.knowledge) st (A, B)
    (pair_mem_inferencePairs A B st.knowledge hsub) hne hcount hinter

/-- Witness for C2_amended: from {a,b,c,d} = 3 before {a,b} = 1 the step
produces the intersection sentence {a,b} = 2. -/
theorem C2_amended_witness :
    ((⟨{(0,0),(0,1)}, 1⟩ : Sentence).count ≤
      (⟨{(0,0),(0,1),(0,2),(0,3)}, 3⟩ : Sentence).count) ∧
    (((⟨{(0,0),(0,1),(0,2),(0,3)}, 3⟩ : Sentence).cells ∩
      (⟨{(0,0),(0,1)}, 1⟩ : Sentence).cells).Nonempty) ∧
    ((⟨(⟨{(0,0),(0,1),(0,2),(0,3)}, 3⟩ : Sentence).cells ∩
        (⟨{(0,0),(0,1)}, 1⟩ : Sentence).cells,
      (⟨{(0,0),(0,1),(0,2),(0,3)}, 3⟩ : Sentence).count -
        (⟨{(0,0),(0,1)}, 1⟩ : Sentence).count⟩ : Sentence) ∈
      (AIState.mk 1 4 ∅ ∅ ∅
        [⟨{(0,0),(0,1),(0,2),(0,3)}, 3⟩, ⟨{(0,0),(0,1)}, 1⟩]).make_inferences.knowledge) :=
  ⟨by decide, by decide,
    C2_amended (AIState.mk 1 4 ∅ ∅ ∅ [⟨{(0,0),(0,1),(0,2),(0,3)}, 3⟩, ⟨{(0,0),(0,1)}, 1⟩])
      ⟨{(0,0),(0,1),(0,2),(0,3)}, 3⟩ ⟨{(0,0),(0,1)}, 1⟩ (List.Sublist.refl _)
      (by decide) (by decide) (by decide)⟩

/-! ## Claim C7: the guaranteed-safe-move query -/

theorem pickCell_none {s : Finset Cell} (h : s = ∅) : pickCell s = none := by
  subst h
  rfl

theorem pickCell_some {s : Finset Cell} (h : s.Nonempty) :
    ∃ c ∈ s, pickCell s = some c := by
  have himg : (s.image fun c => Nat.pair c.1 c.2).Nonempty := h.image _
  rcases Finset.mem_image.mp (Finset.min'_mem _ himg) with ⟨c, hc, hpair⟩
  refine ⟨c, hc, ?_⟩
  unfold pickCell
  rw [dif_pos himg, ← hpair, Nat.unpair_pair]

/-- Claim C7: when the set safes − moves_made − mines is non-empty, the
guaranteed-safe-move query returns one of its cells — hence a cell in safes
and in neither moves_made nor mines — together with the agent state
unchanged; when the set is empty it returns the no-move signal, again with
the state unchanged. -/
theorem C7_safe_move (st : AIState) :
    (((st.safes \ st.moves_made) \ st.mines).Nonempty →
      ∃ c, st.make_safe_move = (some c, st) ∧
        c ∈ st.safes ∧ c ∉ st.moves_made ∧ c ∉ st.mines) ∧
    (((st.safes \ st.moves_made) \ st.mines) = ∅ →
      st.make_safe_move = (none, st)) := by
  constructor
  · intro h
    rcases pickCell_some h with ⟨c, hc, hpick⟩
    have h1 := Finset.mem_sdiff.mp hc
    have h2 := Finset.mem_sdiff.mp h1.1
    refine ⟨c, ?_, h2.1, h2.2, h1.2⟩
    simp only [AIState.make_safe_move, hpick]
  · intro h
    simp only [AIState.make_safe_move, pickCell_none h]

/-- Witness for C7_safe_move: with safes = {(0,1)} and the other sets empty,
the query returns ((0,1), unchanged state). -/
theorem C7_safe_move_witness :
    ((((AIState.mk 2 2 ∅ ∅ {(0,1)} []).safes \
        (AIState.mk 2 2 ∅ ∅ {(0,1)} []).moves_made) \
      (AIState.mk 2 2 ∅ ∅ {(0,1)} []).mines).Nonempty) ∧
    (∃ c, (AIState.mk 2 2 ∅ ∅ {(0,1)} []).make_safe_move =
        (some c, AIState.mk 2 2 ∅ ∅ {(0,1)} []) ∧
      c ∈ (AIState.mk 2 2 ∅ ∅ {(0,1)} []).safes ∧
      c ∉ (AIState.mk 2 2 ∅ ∅ {(0,1)} []).moves_made ∧
      c ∉ (AIState.mk 2 2 ∅ ∅ {(0,1)} []).mines) :=
  ⟨by decide, (C7_safe_move (AIState.mk 2 2 ∅ ∅ {(0,1)} [])).1 (by decide)⟩

/-! ## Claim C10: the fallback move is a deterministic row-major scan -/

theorem findSome?_if_eq_find?_map (r : ℕ) (l : List ℕ) (moves mines : Finset Cell) :
    (l.findSome? fun col =>
        if (r, col) ∉ moves ∧ (r, col) ∉ mines then some (r, col) else none) =
      (l.map fun col => (r, col)).find? fun p => decide (p ∉ moves ∧ p ∉ mines) := by
  induction l with
  | nil => rfl
  | cons c cs ih =>
    by_cases hP : (r, c) ∉ moves ∧ (r, c) ∉ mines
    · simp only [List.findSome?_cons, if_pos hP, List.map_cons]
      rw [List.find?_cons_of_pos _ (by simpa using hP)]
    · simp only [List.findSome?_cons, if_neg hP, List.map_cons]
      rw [List.find?_cons_of_neg _ (by simpa using hP)]
      exact ih

theorem findSome?_eq_find?_flatMap (l : List ℕ) (f : ℕ → Option Cell)
    (g : ℕ → List Cell) (p : Cell → Bool) (hf : ∀ r, f r = (g r).find? p) :
    l.findSome? f = (l.flatMap g).find? p := by
  induction l with
  | nil => rfl
  | cons a as ih =>
    rw [List.findSome?_cons, hf a, List.flatMap_cons, List.find?_append]
    cases h : (g a).find? p with
    | none => simpa [h] using ih
    | some b => simp [h]

theorem make_random_move_eq_fallbackSpec (st : AIState) :
    st.make_random_move = fallbackSpec st.height st.width st.moves_made st.mines := by
  unfold AIState.make_random_move fallbackSpec
  exact findSome?_eq_find?_flatMap _ _ _ _
    (fun r => findSome?_if_eq_find?_map r _ st.moves_made st.mines)

/-- Claim C10: make_random_move draws on no randomness: it is a function of
height, width, moves_made and mines alone — two agents agreeing on those four
fields get the same answer — and that answer is the first cell in row-major
order over rows 0..height−2 and columns 0..width−2 lying in neither set, or
none when no cell of that truncated range qualifies. -/
theorem C10_deterministic (st st' : AIState) (h1 : st.height = st'.height)
    (h2 : st.width = st'.width) (h3 : st.moves_made = st'.moves_made)
    (h4 : st.mines = st'.mines) :
    st.make_random_move = st'.make_random_move ∧
    st.make_random_move = fallbackSpec st.height st.width st.moves_made st.mines := by
  refine ⟨?_, make_random_move_eq_fallbackSpec st⟩
  rw [make_random_move_eq_fallbackSpec st, make_random_move_eq_fallbackSpec st',
    h1, h2, h3, h4]

/-- Witness for C10_deterministic: two agents sharing the four relevant
fields but differing in safes and knowledge return the same move, the
row-major first eligible cell. -/
theorem C10_deterministic_witness :
    ((AIState.mk 3 3 {(0,0)} ∅ {(9,9)} []).height =
      (AIState.mk 3 3 {(0,0)} ∅ ∅ [⟨{(1,1)}, 1⟩]).height) ∧
    ((AIState.mk 3 3 {(0,0)} ∅ {(9,9)} []).width =
      (AIState.mk 3 3 {(0,0)} ∅ ∅ [⟨{(1,1)}, 1⟩]).width) ∧
    ((AIState.mk 3 3 {(0,0)} ∅ {(9,9)} []).moves_made =
      (AIState.mk 3 3 {(0,0)} ∅ ∅ [⟨{(1,1)}, 1⟩]).moves_made) ∧
    ((AIState.mk 3 3 {(0,0)} ∅ {(9,9)} []).mines =
      (AIState.mk 3 3 {(0,0)} ∅ ∅ [⟨{(1,1)}, 1⟩]).mines) ∧
    ((AIState.mk 3 3 {(0,0)} ∅ {(9,9)} []).make_random_move =
      (AIState.mk 3 3 {(0,0)} ∅ ∅ [⟨{(1,1)}, 1⟩]).make_random_move ∧
     (AIState.mk 3 3 {(0,0)} ∅ {(9,9)} []).make_random_move =
      fallbackSpec (AIState.mk 3 3 {(0,0)} ∅ {(9,9)} []).height
        (AIState.mk 3 3 {(0,0)} ∅ {(9,9)} []).width
        (AIState.mk 3 3 {(0,0)} ∅ {(9,9)} []).moves_made
        (AIState.mk 3 3 {(0,0)} ∅ {(9,9)} []).mines) :=
  ⟨rfl, rfl, rfl, rfl,
    C10_deterministic (AIState.mk 3 3 {(0,0)} ∅ {(9,9)} [])
      (AIState.mk 3 3 {(0,0)} ∅ ∅ [⟨{(1,1)}, 1⟩]) rfl rfl rfl rfl⟩
